import Mathlib

/-!
Formal model of the portfolio analyzer in src/app.py.

The repository computes the current composition and the evolution of an
investment portfolio from a table of transactions (operaciones), a long-form
price table (precios) and an exchange-rate series (tipo_cambio_data).

Shallow embedding conventions:
* A pandas DataFrame of transactions is a list of rows; each row carries its
  pandas index label (a natural number), because the code mutates rows through
  `ops_netted.loc[label, col] = v`, which addresses rows by label, and labels
  survive filtering and sorting.  Row order of the list is frame order.
* Dates are integers (day numbers).  The code calls pd.to_datetime on columns
  that load_data has already parsed to datetimes, so date values are fixed
  before any function modelled here runs.
* Quantities, prices and amounts are rational numbers.  Python floats are
  modelled exactly; NaN appears only where the loader can actually deliver it,
  namely the Precio and Moneda columns (load_data line 155 drops null
  Fecha/Tipo/Activo/Monto but not Precio or Moneda), and the TipoCambio value
  column, so those are Option-valued.
* iterrows loops become folds; a `break` over a date-sorted frame becomes
  takeWhile; row-wise conditional mutation by label becomes a map.
-/

namespace Portfolio

/-- Python `needle == hay-segment` check used by the substring test:
`startsWithL n h` is true when `n` is an initial segment of `h`. -/
def startsWithL : List Char → List Char → Bool
  | [], _ => true
  | _ :: _, [] => false
  | a :: as, b :: bs => a == b && startsWithL as bs

/-- Python `needle in hay` on character lists: true when the first list occurs
contiguously inside the second. -/
def inL (n : List Char) : List Char → Bool
  | [] => n.isEmpty
  | c :: t => startsWithL n (c :: t) || inL n t

/-- Python substring operator `needle in hay` on strings. -/
def strIn (needle hay : String) : Bool := inL needle.toList hay.toList

/-- Python str.lower on one character: ASCII letters plus the accented capitals
that occur in the data (the keyword sets only use lowercase letters, so this
matches Python on every string the program compares). -/
def lowerChar (c : Char) : Char :=
  if c = 'Á' then 'á' else if c = 'É' then 'é' else if c = 'Í' then 'í'
  else if c = 'Ó' then 'ó' else if c = 'Ú' then 'ú' else if c = 'Ñ' then 'ñ'
  else c.toLower

/-- Python str.lower. -/
def lowerStr (s : String) : String := String.mk (s.toList.map lowerChar)

/-- Python str.strip on a character list. -/
def trimL (s : List Char) : List Char :=
  ((s.dropWhile Char.isWhitespace).reverse.dropWhile Char.isWhitespace).reverse

/-- Python str.strip. -/
def trimS (s : String) : String := String.mk (trimL s.toList)

/-- Result of the currency keyword classifier `detectar_moneda`. -/
inductive Moneda where
  | dolar : Moneda
  | pesos : Moneda
  | unknown : Moneda
  deriving DecidableEq, Repr

/-- Keywords that classify a label as dollars (app.py line 57, identical
copies at lines 214 and 293). -/
def keywordsDolar : List String := ["dólar", "dolar", "usd", "u$s", "u$", "us$", "billete"]

/-- Keywords that classify a label as pesos (app.py line 61). -/
def keywordsPesos : List String := ["pesos", "peso", "ars"]

/-- `detectar_moneda` (app.py lines 52-64; the same function is repeated
verbatim inside obtener_precio_activo and aplicar_netting_cross_currency):
a null label is unknown; otherwise the label is stripped and lowercased and
matched against the dollar keywords, then the pesos keywords. -/
def detectarMoneda : Option String → Moneda
  | none => Moneda.unknown
  | some texto =>
    let textoLower : String := String.mk ((trimL texto.toList).map lowerChar)
    if keywordsDolar.any (fun k => strIn k textoLower) then Moneda.dolar
    else if keywordsPesos.any (fun k => strIn k textoLower) then Moneda.pesos
    else Moneda.unknown

/-- One transaction row (columns of operaciones_mapped built by load_data). -/
structure Op where
  fecha : Int
  tipo : String
  activo : String
  cantidad : ℚ
  precio : Option ℚ
  monto : ℚ
  moneda : Option String
  deriving DecidableEq, Repr

/-- A transaction row together with its pandas index label. -/
abbrev Fila := Nat × Op

/-- A transactions DataFrame: rows in frame order, each with its label. -/
abbrev Frame := List Fila

/-- One row of the long-form price table precios_long. -/
structure PriceRow where
  fecha : Int
  activo : String
  precio : ℚ
  deriving DecidableEq, Repr

/-- One row of tipo_cambio_data. -/
structure TCRow where
  fecha : Int
  tipoCambio : Option ℚ
  deriving DecidableEq, Repr

/-- Stable insertion of a row into a frame already sorted by date: the new row
goes after every row whose date is less than or equal to its own. -/
def insertByFecha (r : Fila) : Frame → Frame
  | [] => [r]
  | s :: rest => if s.2.fecha ≤ r.2.fecha then s :: insertByFecha r rest else r :: s :: rest

/-- Stable sort of a frame by the Fecha column, modelling
DataFrame.sort_values on a date column (row labels travel with their rows;
rows with equal dates keep their frame order). -/
def sortFrameByFecha (l : Frame) : Frame := l.foldl (fun acc r => insertByFecha r acc) []

/-- First-occurrence list of distinct values, modelling Series.unique. -/
def uniqueAux (seen : List String) : List String → List String
  | [] => []
  | x :: xs => if x ∈ seen then uniqueAux seen xs else x :: uniqueAux (x :: seen) xs

/-- Series.unique on the Activo column. -/
def uniqueL (l : List String) : List String := uniqueAux [] l

/-- Exchange-rate lookup used throughout app.py: filter the tipo_cambio frame
to rows with Fecha at or before the given date and take the last such row in
frame order (`tipo_cambio_data[tipo_cambio_data[...] <= fecha].iloc[-1]`). -/
def lookupTC (tc : List TCRow) (fecha : Int) : Option TCRow :=
  (tc.filter (fun r => decide (r.fecha ≤ fecha))).getLast?

/-- Direct price lookup of obtener_precio_activo (app.py lines 196-200 and
232-236): filter the price table to the asset, then to dates at or before the
requested date, and take the last surviving row in frame order.  Returns none
exactly when the code falls through this branch. -/
def lastPrecio (precios : List PriceRow) (activo : String) (fecha : Int) : Option ℚ :=
  (((precios.filter (fun r => r.activo == activo)).filter
      (fun r => decide (r.fecha ≤ fecha))).getLast?).map (fun r => r.precio)

/-- obtener_precio_activo (app.py lines 192-250).  Direct price first; on
failure, read the Moneda of the last row of the asset in the transactions
frame, classify it, pick the placeholder series DUMMY Pesos for pesos and
DUMMY USD for dolar or unknown (line 226-229, comment: dolar o unknown), look
the placeholder up, and for pesos divide by the exchange rate at or before the
date when that rate exists and is nonzero.  Everything failing, return 0. -/
def obtenerPrecioActivo (activo : String) (fecha : Int) (precios : List PriceRow)
    (operacionesDf : Frame) (tc : List TCRow) : ℚ :=
  match lastPrecio precios activo fecha with
  | some p => p
  | none =>
    match (operacionesDf.filter (fun r => r.2.activo == activo)).getLast? with
    | none => 0
    | some lastRow =>
      let monedaTipo := detectarMoneda lastRow.2.moneda
      let dummyActivo := if monedaTipo = Moneda.pesos then "DUMMY Pesos" else "DUMMY USD"
      match lastPrecio precios dummyActivo fecha with
      | none => 0
      | some precioDummy =>
        if monedaTipo = Moneda.pesos then
          match lookupTC tc fecha with
          | some tcr =>
            match tcr.tipoCambio with
            | some rate => if rate ≠ 0 then precioDummy / rate else precioDummy
            | none => precioDummy
          | none => precioDummy
        else precioDummy

/-- Row-wise body of ajustar_precios_operaciones (app.py lines 70-115): a row
whose Moneda classifies as pesos and whose Precio is not null looks up the
exchange rate at or before its date; when a rate row is found and its value is
present and nonzero, Precio and Monto are divided by it; in every other case
the row is returned unchanged.  The debug st.write calls are display only. -/
def ajustarRow (tc : List TCRow) (row : Op) : Op :=
  if detectarMoneda row.moneda = Moneda.pesos ∧ row.precio.isSome then
    match lookupTC tc row.fecha with
    | some tcr =>
      match tcr.tipoCambio with
      | some rate =>
        if rate ≠ 0 then
          { row with precio := row.precio.map (fun p => p / rate), monto := row.monto / rate }
        else row
      | none => row
    | none => row
  else row

/-- ajustar_precios_operaciones (app.py lines 49-117).  The code copies the
frame and then mutates each row by its own label using only that row and the
exchange-rate series, so on the frames this program builds (unique labels) the
pass is a row-wise map. -/
def ajustarPreciosOperaciones (operaciones : Frame) (tc : List TCRow) : Frame :=
  operaciones.map (fun r => (r.1, ajustarRow tc r.2))

/-- A pandas write `ops_netted.loc[label, 'Cantidad'] = c` followed by
`ops_netted.loc[label, 'Monto'] = m`: every row carrying that label gets the
new quantity and amount; all other rows are untouched. -/
def updateRow (f : Frame) (label : Nat) (c m : ℚ) : Frame :=
  f.map (fun r => if r.1 = label then (r.1, { r.2 with cantidad := c, monto := m }) else r)

/-- The eligible sells for one buy (app.py lines 277-311): sells of the same
asset dated within seven days of the buy on either side, with strictly
negative quantity, whose currency classifies differently from the buy, sorted
by date.  The quantities inspected here come from the ventas frame captured
before the buy loop started, exactly as in the code. -/
def ventasElegibles (ventas : Frame) (compra : Op) : Frame :=
  let ventanaInicio := compra.fecha - 7
  let ventanaFin := compra.fecha + 7
  let compraMonedaTipo := detectarMoneda compra.moneda
  sortFrameByFecha
    ((ventas.filter (fun r =>
        decide (ventanaInicio ≤ r.2.fecha) && decide (r.2.fecha ≤ ventanaFin) &&
        decide (r.2.cantidad < 0))).filter
      (fun r => decide (detectarMoneda r.2.moneda ≠ compraMonedaTipo)))

/-- One iteration of the sell loop of the netting pass (app.py lines 316-350).
State is the frame under mutation plus cantidad_restante.  All reads
(venta quantity and amount, compra amount) come from the snapshots taken
before mutation started, exactly as in the code. -/
def nettingStep (idxCompra : Nat) (compraMonto : ℚ) (st : Frame × ℚ) (r : Fila) : Frame × ℚ :=
  let ops := st.1
  let cantidadRestante := st.2
  if cantidadRestante ≤ 0 then st
  else
    let ventaCantidadAbs := |r.2.cantidad|
    let ventaValor := r.2.monto
    if ventaCantidadAbs ≥ cantidadRestante then
      let ratio := cantidadRestante / ventaCantidadAbs
      let ops := updateRow ops idxCompra 0 0
      let ops := updateRow ops r.1 (-(ventaCantidadAbs - cantidadRestante)) (ventaValor * (1 - ratio))
      (ops, 0)
    else
      let ratio := ventaCantidadAbs / cantidadRestante
      let ops := updateRow ops idxCompra (cantidadRestante - ventaCantidadAbs) (compraMonto * (1 - ratio))
      let ops := updateRow ops r.1 0 0
      (ops, cantidadRestante - ventaCantidadAbs)

/-- Processing of one buy (app.py lines 268-350): a buy whose snapshot
quantity is not positive is skipped; otherwise its eligible sells are consumed
in date order starting from the snapshot quantity of the buy. -/
def processCompra (ventas : Frame) (opsNetted : Frame) (c : Fila) : Frame :=
  if c.2.cantidad ≤ 0 then opsNetted
  else ((ventasElegibles ventas c.2).foldl (nettingStep c.1 c.2.monto) (opsNetted, c.2.cantidad)).1

/-- The buys of one asset in the netting pass: rows of the asset sorted by
date whose Tipo contains compra after lowercasing (app.py lines 260-264). -/
def comprasDe (orig : Frame) (activo : String) : Frame :=
  (sortFrameByFecha (orig.filter (fun r => r.2.activo == activo))).filter
    (fun r => strIn "compra" (lowerStr r.2.tipo))

/-- The sells of one asset in the netting pass (app.py line 265). -/
def ventasDe (orig : Frame) (activo : String) : Frame :=
  (sortFrameByFecha (orig.filter (fun r => r.2.activo == activo))).filter
    (fun r => strIn "venta" (lowerStr r.2.tipo))

/-- Netting for one asset: fold the buys over the frame being mutated.  Both
the buys and the sells are snapshots of the original frame, which is why a
sell already consumed by an earlier buy is still presented to later buys with
its original quantity. -/
def processAsset (orig : Frame) (opsNetted : Frame) (activo : String) : Frame :=
  (comprasDe orig activo).foldl (processCompra (ventasDe orig activo)) opsNetted

/-- aplicar_netting_cross_currency (app.py lines 252-355): per asset in first
occurrence order, match buys against opposite-currency sells within seven
days, then drop every row whose quantity ended up exactly zero (line 353). -/
def aplicarNetting (operaciones : Frame) : Frame :=
  let opsNetted :=
    (uniqueL (operaciones.map (fun r => r.2.activo))).foldl (processAsset operaciones) operaciones
  opsNetted.filter (fun r => decide (r.2.cantidad ≠ 0))

/-- One step of the last-reset scan of calculate_current_portfolio (app.py
lines 388-399) and calculate_portfolio_evolution (lines 521-535): the running
quantity moves by the signed Cantidad when the stripped Tipo equals Compra or
Venta exactly (note: not a lowercase substring test, and a Venta subtracts the
signed quantity, not its absolute value); when the running quantity passes
from positive to zero or below, the reset date is recorded and the running
quantity is pinned to zero. -/
def resetScanStep (st : ℚ × Option Int) (r : Fila) : ℚ × Option Int :=
  let previous := st.1
  let running :=
    if trimS r.2.tipo == "Compra" then previous + r.2.cantidad
    else if trimS r.2.tipo == "Venta" then previous - r.2.cantidad
    else previous
  if previous > 0 ∧ running ≤ 0 then (0, some r.2.fecha) else (running, st.2)

/-- The last-reset scan over a frame of rows: running quantity starts at 0 and
the reset date starts undefined. -/
def resetScanExact (rows : Frame) : ℚ × Option Int := rows.foldl resetScanStep (0, none)

/-- Keyword set classifying a row as income (app.py line 425). -/
def incomeKeywords : List String :=
  ["dividendo", "cupón", "dividend", "coupon", "amortización", "amortizacion"]

/-- Aggregate of one pass over post-reset operations (app.py lines 410-426 and
the identical loops at 549-593). -/
structure Agg where
  nominales : ℚ
  invertido : ℚ
  ventas : ℚ
  divCupones : ℚ
  deriving DecidableEq, Repr

/-- One step of the aggregation loop (app.py lines 415-426): Tipo is stripped
and lowercased; a row containing compra adds its signed quantity and its
amount; a row containing venta subtracts the absolute quantity (the code
flips the sign when Cantidad is negative) and adds its amount to sales; a row
containing an income keyword adds its amount to income; anything else is
ignored. -/
def aggStep (a : Agg) (r : Fila) : Agg :=
  let tipoLower := lowerStr (trimS r.2.tipo)
  if strIn "compra" tipoLower then
    { a with nominales := a.nominales + r.2.cantidad, invertido := a.invertido + r.2.monto }
  else if strIn "venta" tipoLower then
    let cantidadVenta := if r.2.cantidad < 0 then -r.2.cantidad else r.2.cantidad
    { a with nominales := a.nominales - cantidadVenta, ventas := a.ventas + r.2.monto }
  else if incomeKeywords.any (fun k => strIn k tipoLower) then
    { a with divCupones := a.divCupones + r.2.monto }
  else a

/-- Aggregation loop starting from zeroes. -/
def aggregateOps (rows : Frame) : Agg := rows.foldl aggStep ⟨0, 0, 0, 0⟩

/-- The operations of one asset at or before a date, in date order (app.py
lines 375-378). -/
def assetOpsUntil (opsNetted : Frame) (activo : String) (fecha : Int) : Frame :=
  (sortFrameByFecha (opsNetted.filter (fun r => r.2.activo == activo))).filter
    (fun r => decide (r.2.fecha ≤ fecha))

/-- Restriction to operations after the last reset (app.py lines 401-407):
when the scan recorded no reset, all rows are kept; otherwise only rows with
date strictly after the reset date. -/
def opsSinceReset (rows : Frame) : Frame :=
  match (resetScanExact rows).2 with
  | none => rows
  | some d => rows.filter (fun r => decide (r.2.fecha > d))

/-- The reconstructed post-reset quantity of one asset at a date, as
calculate_current_portfolio computes it (current_nominals at line 429). -/
def currentNominalsOf (opsNetted : Frame) (activo : String) (fecha : Int) : ℚ :=
  (aggregateOps (opsSinceReset (assetOpsUntil opsNetted activo fecha))).nominales

/-- One row of the current-composition report. -/
structure PortRow where
  activo : String
  nominales : ℚ
  precioActual : ℚ
  valorActual : ℚ
  invertido : ℚ
  ventas : ℚ
  divCupones : ℚ
  gananciaTotal : ℚ
  deriving DecidableEq, Repr

/-- Per-asset body of calculate_current_portfolio (app.py lines 373-449):
skip assets with no operations at or before the date; find the last reset;
aggregate the post-reset operations; emit a row only when the resulting
quantity is strictly positive and the resolved price is strictly positive. -/
def currentAssetRow (opsNetted : Frame) (precios : List PriceRow) (fechaActual : Int)
    (tc : List TCRow) (activo : String) : Option PortRow :=
  let untilDate := assetOpsUntil opsNetted activo fechaActual
  if untilDate.isEmpty then none
  else
    let agg := aggregateOps (opsSinceReset untilDate)
    if agg.nominales > 0 then
      let currentPrice := obtenerPrecioActivo activo fechaActual precios opsNetted tc
      if currentPrice > 0 then
        let currentValue := agg.nominales * currentPrice
        some
          { activo := activo
            nominales := agg.nominales
            precioActual := currentPrice
            valorActual := currentValue
            invertido := agg.invertido
            ventas := agg.ventas
            divCupones := agg.divCupones
            gananciaTotal := (currentValue - agg.invertido) + agg.divCupones + agg.ventas }
      else none
    else none

/-- calculate_current_portfolio after the netting pass (app.py lines 367-451):
iterate the distinct assets of the netted frame and collect the emitted rows. -/
def calculateCurrentPortfolioNetted (opsNetted : Frame) (precios : List PriceRow)
    (fechaActual : Int) (tc : List TCRow) : List PortRow :=
  (uniqueL (opsNetted.map (fun r => r.2.activo))).filterMap
    (currentAssetRow opsNetted precios fechaActual tc)

/-- calculate_current_portfolio (app.py lines 357-451).  The date conversions
at lines 361-362 are the identity on the already parsed dates delivered by
load_data; the local name operaciones is rebound to the netted frame at line
365 and all later reads, including the price fallback, use that frame. -/
def calculateCurrentPortfolio (operaciones : Frame) (precios : List PriceRow)
    (fechaActual : Int) (tc : List TCRow) : List PortRow :=
  calculateCurrentPortfolioNetted (aplicarNetting operaciones) precios fechaActual tc

/-- One iteration of PASO 1 of calculate_portfolio_evolution (app.py lines
478-495): the loop latches once the flag is set (the code breaks out); Tipo is
stripped and lowercased and tested for the compra or venta substrings, a venta
subtracting the absolute quantity; the flag is set when the date of the row
lies in the period and the running quantity just became positive. -/
def evoPaso1Step (inicio fin : Int) (st : ℚ × Bool) (r : Fila) : ℚ × Bool :=
  if st.2 then st
  else
    let tipoLower := lowerStr (trimS r.2.tipo)
    let temp :=
      if strIn "compra" tipoLower then st.1 + r.2.cantidad
      else if strIn "venta" tipoLower then
        st.1 - (if r.2.cantidad < 0 then -r.2.cantidad else r.2.cantidad)
      else st.1
    (temp, decide (inicio ≤ r.2.fecha) && decide (r.2.fecha ≤ fin) && decide (temp > 0))

/-- One iteration of the additional start-of-period check of
calculate_portfolio_evolution (app.py lines 504-507): exact stripped equality
with Compra and Venta, and a Venta subtracts the signed quantity. -/
def evoInicioStep (acc : ℚ) (r : Fila) : ℚ :=
  if trimS r.2.tipo == "Compra" then acc + r.2.cantidad
  else if trimS r.2.tipo == "Venta" then acc - r.2.cantidad
  else acc

/-- One row of the evolution report. -/
structure EvoRow where
  activo : String
  nominales : ℚ
  precioActual : ℚ
  valorActual : ℚ
  valorInicio : ℚ
  ventas : ℚ
  divCupones : ℚ
  gananciaTotal : ℚ
  deriving DecidableEq, Repr

/-- Per-asset body of calculate_portfolio_evolution (app.py lines 469-638).
The loops that break on a date bound run over a date-sorted frame, hence the
takeWhile forms.  An asset that passes the activity check always produces a
row; no positivity or price condition guards the append at line 629. -/
def evolutionAssetRow (opsNetted : Frame) (precios : List PriceRow) (inicio fin : Int)
    (tc : List TCRow) (activo : String) : Option EvoRow :=
  let assetOps := sortFrameByFecha (opsNetted.filter (fun r => r.2.activo == activo))
  let paso1 :=
    (assetOps.takeWhile (fun r => decide (r.2.fecha ≤ fin))).foldl (evoPaso1Step inicio fin)
      (0, false)
  let hadPositive :=
    if paso1.2 then true
    else decide (0 < (assetOps.takeWhile (fun r => decide (r.2.fecha < inicio))).foldl evoInicioStep 0)
  if hadPositive then
    let lastResetDate :=
      (resetScanExact (assetOps.takeWhile (fun r => decide (r.2.fecha ≤ inicio)))).2
    let opsSinceResetE : Frame :=
      match lastResetDate with
      | none => assetOps.filter (fun (r : Fila) => decide (r.2.fecha ≤ fin))
      | some d =>
        assetOps.filter (fun (r : Fila) => decide (r.2.fecha > d) && decide (r.2.fecha ≤ fin))
    let opsUntilInicio := opsSinceResetE.filter (fun r => decide (r.2.fecha ≤ inicio))
    let aggInicio := aggregateOps opsUntilInicio
    let opsEnRango :=
      opsSinceResetE.filter (fun r => decide (inicio ≤ r.2.fecha) && decide (r.2.fecha ≤ fin))
    let aggFin := opsEnRango.foldl aggStep aggInicio
    let precioInicio := obtenerPrecioActivo activo inicio precios opsNetted tc
    let precioFin := obtenerPrecioActivo activo fin precios opsNetted tc
    let comprasEnPeriodo :=
      opsEnRango.foldl
        (fun acc r => if strIn "compra" (lowerStr (trimS r.2.tipo)) then acc + r.2.monto else acc) 0
    let valorInicio :=
      (if aggInicio.nominales > 0 then aggInicio.nominales * precioInicio else 0) + comprasEnPeriodo
    let valorFin := aggFin.nominales * precioFin
    let divCuponesDesdeInicio := aggFin.divCupones - aggInicio.divCupones
    let ventasDesdeInicio := aggFin.ventas - aggInicio.ventas
    some
      { activo := activo
        nominales := aggFin.nominales
        precioActual := precioFin
        valorActual := valorFin
        valorInicio := valorInicio
        ventas := ventasDesdeInicio
        divCupones := divCuponesDesdeInicio
        gananciaTotal := (valorFin - valorInicio) + divCuponesDesdeInicio + ventasDesdeInicio }
  else none

/-- calculate_portfolio_evolution after the netting pass (app.py 463-640). -/
def calculatePortfolioEvolutionNetted (opsNetted : Frame) (precios : List PriceRow)
    (inicio fin : Int) (tc : List TCRow) : List EvoRow :=
  (uniqueL (opsNetted.map (fun r => r.2.activo))).filterMap
    (evolutionAssetRow opsNetted precios inicio fin tc)

/-- calculate_portfolio_evolution (app.py lines 453-640); as in the current
computation, the local operaciones is rebound to the netted frame and every
later read uses it. -/
def calculatePortfolioEvolution (operaciones : Frame) (precios : List PriceRow)
    (inicio fin : Int) (tc : List TCRow) : List EvoRow :=
  calculatePortfolioEvolutionNetted (aplicarNetting operaciones) precios inicio fin tc

/-- pd.to_datetime with dayfirst on a column that load_data already converted
to datetimes: the identity on date values.  The two portfolio entry points
reassign the Fecha columns of the frames passed by the caller (app.py lines
361-362 and 457-458); every other step works on copies made by
operaciones.copy() inside the netting pass (line 256) and inside
ajustar_precios_operaciones (line 67). -/
def toDatetimeDayfirst (d : Int) : Int := d

/-- The transactions frame as the caller sees it after
calculate_current_portfolio or calculate_portfolio_evolution returns: only
the Fecha column was reassigned, through toDatetimeDayfirst. -/
def callerOpsAfterQuery (operaciones : Frame) : Frame :=
  operaciones.map (fun r => (r.1, { r.2 with fecha := toDatetimeDayfirst r.2.fecha }))

/-- The price table as the caller sees it after either query returns. -/
def callerPreciosAfterQuery (precios : List PriceRow) : List PriceRow :=
  precios.map (fun p => { p with fecha := toDatetimeDayfirst p.fecha })

/-! Concrete inputs used to settle the claims.  Dates are day numbers with
day 1 standing for Jan 1, so Feb 1 is 32, Mar 1 is 60, Mar 15 is 74,
Apr 1 is 91. -/

/-- A buy of 100 followed by a sell recorded with the ledger sign convention
(quantity -100), same currency throughout. -/
def exC1Neg : Frame :=
  [(0, ⟨1, "Compra", "X", 100, none, 1000, some "Dolares"⟩),
   (1, ⟨32, "Venta", "X", -100, none, 1200, some "Dolares"⟩)]

/-- The same two operations with the sell quantity as a positive magnitude. -/
def exC1Pos : Frame :=
  [(0, ⟨1, "Compra", "X", 100, none, 1000, some "Dolares"⟩),
   (1, ⟨32, "Venta", "X", 100, none, 1200, some "Dolares"⟩)]

/-- The scenario of claim C2: Buy(Jan 1, 100, 1000), Sell(Feb 1, -100, 1200),
Buy(Mar 15, 50, 600), all in one currency so that netting never matches. -/
def exC2 : Frame :=
  [(0, ⟨1, "Compra", "X", 100, none, 1000, some "Dolares"⟩),
   (1, ⟨32, "Venta", "X", -100, none, 1200, some "Dolares"⟩),
   (2, ⟨74, "Compra", "X", 50, none, 600, some "Dolares"⟩)]

/-- A direct price for X so that the Apr 1 row can be emitted. -/
def exC2Precios : List PriceRow := [⟨1, "X", 10⟩]

/-- Two dollar buys of 100 each (day 0 and day 1) and a single peso sell of
magnitude 100 (day 0): total sell capacity 100 against 200 of buys. -/
def exC3 : Frame :=
  [(0, ⟨0, "Compra", "A", 100, none, 1000, some "Dolar"⟩),
   (1, ⟨1, "Compra", "A", 100, none, 1000, some "Dolar"⟩),
   (2, ⟨0, "Venta", "A", -100, none, 50000, some "Pesos"⟩)]

/-- Buy 100 on day 0, sell -100 on day 10, same currency; the position closes
on day 10 and nothing happens inside the query window [20, 30]. -/
def exC4 : Frame :=
  [(0, ⟨0, "Compra", "A", 100, none, 1000, some "Dolares"⟩),
   (1, ⟨10, "Venta", "A", -100, none, 1200, some "Dolares"⟩)]

/-- An asset Z with no direct price whose only transaction has a null currency
label, hence classification unknown. -/
def exC5Ops : Frame := [(0, ⟨5, "Compra", "Z", 10, none, 100, none⟩)]

/-- Distinct prices for the two placeholder series. -/
def exC5Precios : List PriceRow := [⟨1, "DUMMY USD", 10⟩, ⟨1, "DUMMY Pesos", 5⟩]

/-- A nonzero exchange rate available at every queried date. -/
def exC5TC : List TCRow := [⟨1, some 2⟩]

/-- A peso transaction whose Precio is null but whose Monto is 100, with a
nonzero exchange rate of 2 available before its date. -/
def exC6 : Frame := [(0, ⟨10, "Compra", "Y", 5, none, 100, some "Pesos"⟩)]

/-- Exchange-rate series for the C6 examples. -/
def exC6TC : List TCRow := [⟨0, some 2⟩]

/-- Cross-currency buy and sell exactly seven days apart. -/
def exC8In : Frame :=
  [(0, ⟨0, "Compra", "B", 100, none, 1000, some "Dolar"⟩),
   (1, ⟨7, "Venta", "B", -100, none, 90000, some "Pesos"⟩)]

/-- Cross-currency buy and sell exactly eight days apart. -/
def exC8Out : Frame :=
  [(0, ⟨0, "Compra", "B", 100, none, 1000, some "Dolar"⟩),
   (1, ⟨8, "Venta", "B", -100, none, 90000, some "Pesos"⟩)]

/-- A dollar holding of asset C plus an income row recorded with quantity 0
and amount 500. -/
def exC10With : Frame :=
  [(0, ⟨0, "Compra", "C", 10, none, 100, some "Dolar"⟩),
   (1, ⟨5, "Cupón", "C", 0, none, 500, some "Dolar"⟩)]

/-- The same holding without the zero-quantity income row. -/
def exC10Without : Frame := [(0, ⟨0, "Compra", "C", 10, none, 100, some "Dolar"⟩)]

/-- A direct price for asset C. -/
def exC10Precios : List PriceRow := [⟨0, "C", 20⟩]

/-- Asset W for the C5 witness: no direct price, dollar label. -/
def exW5Ops : Frame := [(0, ⟨5, "Compra", "W", 10, none, 100, some "Dolar"⟩)]

/-- Placeholder price series for the C5 witness. -/
def exW5Precios : List PriceRow := [⟨1, "DUMMY USD", 7⟩]

/-- A buy and a sell of the same asset thirteen days later in another
currency: outside the seven-day window on every side. -/
def exW8 : Frame :=
  [(0, ⟨0, "Compra", "D", 100, none, 1000, some "Dolar"⟩),
   (1, ⟨20, "Venta", "D", -50, none, 600, some "Pesos"⟩)]

/-- A one-asset frame for the C7 witness. -/
def exW7Ops : Frame := [(0, ⟨1, "Compra", "V", 100, none, 1000, some "Dolares"⟩)]

/-- A direct price for the C7 witness asset. -/
def exW7Precios : List PriceRow := [⟨1, "V", 3⟩]

/-- Claim C1, evaluated on the code.  The last-reset scan of
calculate_current_portfolio and calculate_portfolio_evolution is not
invariant under the sell sign convention: with the sell written as a positive
magnitude the scan ends at quantity 0 with a reset recorded at the sell date,
while with the ledger convention (quantity -100) the same scan subtracts the
signed value, ends at running quantity 200 and records no reset.  The scan
also recognises kinds by exact stripped equality with Compra and Venta, not
by case-insensitive substring match. -/
theorem resetScan_sign_dependent_eval :
    resetScanExact exC1Pos = (0, some 32) ∧ resetScanExact exC1Neg = (200, none) := by
  constructor <;>
  norm_num +decide [resetScanExact, resetScanStep, exC1Pos, exC1Neg, List.foldl]

/-- Claim C2, evaluated on the code.  On the Buy(Jan 1, 100, 1000),
Sell(Feb 1, -100, 1200), Buy(Mar 15, 50, 600) scenario the Mar 1 report does
exclude X, but because the aggregation reaches quantity 0, not because a
reset was recorded: the Apr 1 report keeps the pre-Feb operations and shows
capital invested 1600, not the 600 the claim states. -/
theorem currentPortfolio_reset_scenario_eval :
    calculateCurrentPortfolio exC2 exC2Precios 60 [] = [] ∧
    calculateCurrentPortfolio exC2 exC2Precios 91 [] =
      [⟨"X", 50, 10, 500, 1600, 1200, 0, 100⟩] := by
  constructor <;>
  norm_num +decide [calculateCurrentPortfolio, calculateCurrentPortfolioNetted, currentAssetRow,
    assetOpsUntil, opsSinceReset, resetScanExact, resetScanStep, aggregateOps, aggStep,
    obtenerPrecioActivo, lastPrecio, lookupTC,
    aplicarNetting, processAsset, processCompra, nettingStep, ventasElegibles,
    comprasDe, ventasDe, updateRow, sortFrameByFecha, insertByFecha, uniqueL, uniqueAux,
    detectarMoneda, incomeKeywords, exC2, exC2Precios, List.foldl, List.filterMap_cons]

/-- Claim C3, evaluated on the code.  The netting pass reads sell quantities
from the frame captured before any mutation, so the single sell of magnitude
100 is matched in full by the day 0 buy and then matched again, at its
original capacity, by the day 1 buy: all three rows end at quantity 0 and are
dropped, destroying 200 of bought quantity against 100 of sell capacity. -/
theorem netting_double_consumes_sell_eval : aplicarNetting exC3 = [] := by
  norm_num +decide [aplicarNetting, processAsset, processCompra, nettingStep, ventasElegibles,
    comprasDe, ventasDe, updateRow, sortFrameByFecha, insertByFecha, uniqueL, uniqueAux,
    detectarMoneda, exC3, List.foldl]

/-- Claim C4, evaluated on the code.  An asset that holds quantity 0 at the
period start (buy 100, sell -100, both before the window) and has no
operation inside [20, 30] is still included in the evolution report: the
start-of-period check subtracts the signed sell quantity, computing
100 - (-100) = 200 > 0. -/
theorem evolution_includes_inactive_asset_eval :
    calculatePortfolioEvolution exC4 [] 20 30 [] = [⟨"A", 0, 0, 0, 0, 0, 0, 0⟩] := by
  norm_num +decide [calculatePortfolioEvolution, calculatePortfolioEvolutionNetted,
    evolutionAssetRow, evoPaso1Step, evoInicioStep,
    resetScanExact, resetScanStep, aggregateOps, aggStep,
    obtenerPrecioActivo, lastPrecio, lookupTC,
    aplicarNetting, processAsset, processCompra, nettingStep, ventasElegibles,
    comprasDe, ventasDe, updateRow, sortFrameByFecha, insertByFecha, uniqueL, uniqueAux,
    detectarMoneda, incomeKeywords, exC4, List.foldl, List.filterMap_cons]

/-- Claim C9: each query is a pure function of its inputs.  The only in-place
writes the two entry points perform on the frames the caller passed are the
Fecha column reassignments, which are the identity on the already parsed
dates, and both reports are recomputed from the netted working copy on every
call; the netting pass and the normalizer work on copies. -/
theorem queries_pure_caller_tables_unchanged :
    ∀ (operaciones : Frame) (precios : List PriceRow),
      callerOpsAfterQuery operaciones = operaciones ∧
      callerPreciosAfterQuery precios = precios ∧
      ∀ (fechaActual inicio fin : Int) (tc : List TCRow),
        calculateCurrentPortfolio operaciones precios fechaActual tc =
          calculateCurrentPortfolioNetted (aplicarNetting operaciones) precios fechaActual tc ∧
        calculatePortfolioEvolution operaciones precios inicio fin tc =
          calculatePortfolioEvolutionNetted (aplicarNetting operaciones) precios inicio fin tc := by
  intro operaciones precios
  refine ⟨?_, ?_, fun _ _ _ _ => ⟨rfl, rfl⟩⟩
  · induction operaciones with
    | nil => rfl
    | cons r rest ih => simp [callerOpsAfterQuery, toDatetimeDayfirst] at ih ⊢
  · induction precios with
    | nil => rfl
    | cons p rest ih => simp [callerPreciosAfterQuery, toDatetimeDayfirst] at ih ⊢


/-- Counterexample to claim C5 as stated: an asset with no direct price whose
last transaction has an unclassifiable (here null) currency label resolves to
the DUMMY USD series price 10, not to the DUMMY Pesos series price 5 that the
claim assigns to the Unknown case. -/
theorem obtenerPrecio_unknown_counterexample :
    obtenerPrecioActivo "Z" 100 exC5Precios exC5Ops exC5TC = 10 ∧
    lastPrecio exC5Precios "DUMMY Pesos" 100 = some 5 ∧ ((10 : ℚ) = 5 → False) := by
  refine ⟨?_, by decide, by norm_num⟩
  norm_num +decide [obtenerPrecioActivo, lastPrecio, lookupTC, detectarMoneda,
    exC5Precios, exC5Ops, exC5TC]

/-- Claim C5 as amended: with no direct price at or before the date, the
resolver classifies the currency label of the last transaction row of the
asset in frame order; a label not classified pesos (dollar or unknown) yields
the DUMMY USD price unconverted, and a pesos label yields the DUMMY Pesos
price divided by the exchange rate at or before the date, unconverted when
that rate is missing, null or zero. -/
theorem obtenerPrecio_fallback_cases (activo : String) (fecha : Int) (precios : List PriceRow)
    (ops : Frame) (tc : List TCRow) (lastRow : Fila)
    (hdirect : lastPrecio precios activo fecha = none)
    (hlast : (ops.filter (fun r => r.2.activo == activo)).getLast? = some lastRow) :
    (detectarMoneda lastRow.2.moneda ≠ Moneda.pesos →
      ∀ pu : ℚ, lastPrecio precios "DUMMY USD" fecha = some pu →
        obtenerPrecioActivo activo fecha precios ops tc = pu) ∧
    (detectarMoneda lastRow.2.moneda = Moneda.pesos →
      ∀ pp : ℚ, lastPrecio precios "DUMMY Pesos" fecha = some pp →
        (∀ (tcr : TCRow) (rate : ℚ), lookupTC tc fecha = some tcr → tcr.tipoCambio = some rate →
            rate ≠ 0 → obtenerPrecioActivo activo fecha precios ops tc = pp / rate) ∧
        (∀ tcr : TCRow, lookupTC tc fecha = some tcr →
            tcr.tipoCambio = none ∨ tcr.tipoCambio = some 0 →
            obtenerPrecioActivo activo fecha precios ops tc = pp) ∧
        (lookupTC tc fecha = none → obtenerPrecioActivo activo fecha precios ops tc = pp)) := by
  constructor
  · intro hmon pu hpu
    simp only [obtenerPrecioActivo, hdirect, hlast, if_neg hmon, hpu, if_neg hmon]
  · intro hmon pp hpp
    refine ⟨?_, ?_, ?_⟩
    · intro tcr rate htcr hrate hnz
      simp only [obtenerPrecioActivo, hdirect, hlast, hmon, if_pos rfl, htcr, hrate,
        if_pos hnz]
      simp [hpp]
    · intro tcr htcr hdisj
      rcases hdisj with h0 | h0 <;>
      · simp only [obtenerPrecioActivo, hdirect, hlast, hmon, if_pos rfl, htcr, h0,
          ne_eq, not_true_eq_false, if_false, ite_self]
        simp [hpp]
    · intro hnone
      simp only [obtenerPrecioActivo, hdirect, hlast, hmon, if_pos rfl, hnone]
      simp [hpp]


/-- Witness for the amended claim C5: a dollar-labelled asset with no direct
price resolves to the DUMMY USD price 7. -/
theorem obtenerPrecio_fallback_cases_witness :
    obtenerPrecioActivo "W" 100 exW5Precios exW5Ops [] = 7 :=
  (obtenerPrecio_fallback_cases "W" 100 exW5Precios exW5Ops []
      (0, ⟨5, "Compra", "W", 10, none, 100, some "Dolar"⟩)
      (by decide) (by decide)).1 (by decide) 7 (by decide)

/-- Counterexample to claim C6 as stated: a transaction classified pesos
whose exchange rate is found (2, nonzero) but whose price is null passes
through the normalizer completely unchanged, its amount included, although
the claim requires amount 100 to become 50. -/
theorem ajustar_null_price_counterexample :
    ajustarPreciosOperaciones exC6 exC6TC = exC6 ∧
    detectarMoneda (some "Pesos") = Moneda.pesos ∧
    lookupTC exC6TC 10 = some ⟨0, some 2⟩ ∧ ((2 : ℚ) = 0 → False) ∧
    ((100 : ℚ) / 2 = 100 → False) := by
  refine ⟨by decide, by decide, by decide, by norm_num, by norm_num⟩

/-- Claim C6 as amended: the normalizer is a row-wise map; a row classified
pesos whose price is non-null and whose rate lookup yields a nonzero rate has
price and amount divided by that rate; a row not classified pesos, or with a
null price, or with no rate row found, or with a null or zero rate value,
passes through unchanged. -/
theorem ajustar_cases (ops : Frame) (tc : List TCRow) :
    ajustarPreciosOperaciones ops tc = ops.map (fun r => (r.1, ajustarRow tc r.2)) ∧
    ∀ row : Op,
      (∀ p : ℚ, detectarMoneda row.moneda = Moneda.pesos → row.precio = some p →
        ∀ (tcr : TCRow) (rate : ℚ), lookupTC tc row.fecha = some tcr →
          tcr.tipoCambio = some rate → rate ≠ 0 →
          ajustarRow tc row = { row with precio := some (p / rate), monto := row.monto / rate }) ∧
      (detectarMoneda row.moneda ≠ Moneda.pesos → ajustarRow tc row = row) ∧
      (row.precio = none → ajustarRow tc row = row) ∧
      (lookupTC tc row.fecha = none → ajustarRow tc row = row) ∧
      (∀ tcr : TCRow, lookupTC tc row.fecha = some tcr →
        tcr.tipoCambio = none ∨ tcr.tipoCambio = some 0 → ajustarRow tc row = row) := by
  refine ⟨rfl, fun row => ⟨?_, ?_, ?_, ?_, ?_⟩⟩
  · intro p hmon hp tcr rate htcr hrate hnz
    simp [ajustarRow, hmon, hp, htcr, hrate, hnz]
  · intro hmon
    simp [ajustarRow, hmon]
  · intro hp
    simp [ajustarRow, hp]
  · intro hnone
    simp only [ajustarRow, hnone]
    split <;> rfl
  · intro tcr htcr hdisj
    rcases hdisj with h0 | h0 <;>
    · simp only [ajustarRow, htcr, h0]
      split <;> rfl

/-- Witness for the amended claim C6: a peso row with price 30 and amount 100
dated after a rate of 2 is divided by that rate. -/
theorem ajustar_cases_witness :
    ajustarRow exC6TC ⟨10, "Compra", "Y", 5, some 30, 100, some "Pesos"⟩ =
      { fecha := 10, tipo := "Compra", activo := "Y", cantidad := 5, precio := some (30 / 2),
        monto := 100 / 2, moneda := some "Pesos" } :=
  ((ajustar_cases exC6 exC6TC).2 ⟨10, "Compra", "Y", 5, some 30, 100, some "Pesos"⟩).1 30
    (by decide) rfl ⟨0, some 2⟩ 2 (by decide) rfl (by norm_num)


/-- Membership in the accumulator version of unique. -/
theorem mem_uniqueAux (x : String) (l : List String) : ∀ seen : List String,
    (x ∈ uniqueAux seen l ↔ x ∈ l ∧ x ∉ seen) := by
  induction l with
  | nil => intro seen; simp [uniqueAux]
  | cons y ys ih =>
    intro seen
    by_cases hy : y ∈ seen
    · rw [uniqueAux, if_pos hy, ih seen]
      by_cases hxy : x = y <;> simp [hxy, hy]
    · rw [uniqueAux, if_neg hy]
      by_cases hxy : x = y
      · subst hxy
        simp [hy, ih]
      · simp only [List.mem_cons, hxy, false_or, ih (y :: seen), List.mem_cons]
        try tauto

/-- unique preserves the set of values. -/
theorem mem_uniqueL (x : String) (l : List String) : x ∈ uniqueL l ↔ x ∈ l := by
  rw [uniqueL, mem_uniqueAux]
  simp

/-- Membership through stable insertion. -/
theorem mem_insertByFecha (x r : Fila) (l : Frame) :
    x ∈ insertByFecha r l ↔ x = r ∨ x ∈ l := by
  induction l with
  | nil => simp [insertByFecha]
  | cons s rest ih =>
    rw [insertByFecha]
    split
    · rw [List.mem_cons, ih, List.mem_cons]
      tauto
    · simp only [List.mem_cons]

/-- Sorting a frame by date preserves its rows. -/
theorem mem_sortFrame (x : Fila) (l : Frame) : x ∈ sortFrameByFecha l ↔ x ∈ l := by
  have aux : ∀ (m : Frame) (acc : Frame),
      (x ∈ m.foldl (fun acc r => insertByFecha r acc) acc ↔ x ∈ acc ∨ x ∈ m) := by
    intro m
    induction m with
    | nil => intro acc; simp
    | cons r rest ih =>
      intro acc
      rw [List.foldl_cons, ih, mem_insertByFecha, List.mem_cons]
      tauto
  rw [sortFrameByFecha, aux]
  simp

/-- An asset with no rows in the netted frame reconstructs to quantity 0. -/
theorem currentNominalsOf_of_not_mem (opsNetted : Frame) (activo : String) (fecha : Int)
    (h : ∀ r ∈ opsNetted, r.2.activo ≠ activo) :
    currentNominalsOf opsNetted activo fecha = 0 := by
  have hfil : opsNetted.filter (fun r => r.2.activo == activo) = [] := by
    rw [List.filter_eq_nil_iff]
    intro r hr
    simpa using h r hr
  simp [currentNominalsOf, assetOpsUntil, hfil, sortFrameByFecha, opsSinceReset,
    resetScanExact, aggregateOps]

/-- A row emitted for an asset carries that asset name. -/
theorem currentAssetRow_activo {opsNetted : Frame} {precios : List PriceRow} {fecha : Int}
    {tc : List TCRow} {activo : String} {row : PortRow}
    (h : currentAssetRow opsNetted precios fecha tc activo = some row) : row.activo = activo := by
  simp only [currentAssetRow] at h
  split at h
  · exact absurd h (by simp)
  · split at h
    · split at h
      · cases h; rfl
      · exact absurd h (by simp)
    · exact absurd h (by simp)

/-- The per-asset body of the current-composition computation emits a row
exactly when the reconstructed post-reset quantity and the resolved price are
both strictly positive. -/
theorem currentAssetRow_some_iff (opsNetted : Frame) (precios : List PriceRow) (fecha : Int)
    (tc : List TCRow) (activo : String) :
    (∃ row, currentAssetRow opsNetted precios fecha tc activo = some row) ↔
      (0 < currentNominalsOf opsNetted activo fecha ∧
       0 < obtenerPrecioActivo activo fecha precios opsNetted tc) := by
  have hnomdef : currentNominalsOf opsNetted activo fecha =
      (aggregateOps (opsSinceReset (assetOpsUntil opsNetted activo fecha))).nominales := rfl
  simp only [currentAssetRow]
  by_cases hE : (assetOpsUntil opsNetted activo fecha).isEmpty
  · have hnil : assetOpsUntil opsNetted activo fecha = [] := by
      simpa [List.isEmpty_iff] using hE
    rw [hnomdef, hnil]
    simp [hE, opsSinceReset, resetScanExact, aggregateOps]
  · rw [hnomdef]
    simp only [hE, Bool.false_eq_true, if_false]
    by_cases h1 : 0 < (aggregateOps (opsSinceReset (assetOpsUntil opsNetted activo fecha))).nominales
    · by_cases h2 : 0 < obtenerPrecioActivo activo fecha precios opsNetted tc
      · simp [if_pos h1, if_pos h2, h1, h2]
      · simp [if_pos h1, if_neg h2, h1, h2]
    · simp [if_neg h1, h1]


/-- Claim C7: an asset appears in the current-composition report exactly when
its reconstructed post-reset quantity at the evaluation date is strictly
positive and its resolved price at that date is strictly positive; and when
the resolver finds no direct price and the placeholder path fails too (no
transaction row for the asset, or no placeholder price), it returns 0, a
value the inclusion condition excludes. -/
theorem currentPortfolio_inclusion_iff (operaciones : Frame) (precios : List PriceRow)
    (fechaActual : Int) (tc : List TCRow) (activo : String) :
    ((∃ row ∈ calculateCurrentPortfolio operaciones precios fechaActual tc,
        row.activo = activo) ↔
      0 < currentNominalsOf (aplicarNetting operaciones) activo fechaActual ∧
      0 < obtenerPrecioActivo activo fechaActual precios (aplicarNetting operaciones) tc) ∧
    (∀ ops : Frame,
      lastPrecio precios activo fechaActual = none →
      ((ops.filter (fun r => r.2.activo == activo)).getLast? = none ∨
        (∀ da ∈ ["DUMMY Pesos", "DUMMY USD"], lastPrecio precios da fechaActual = none)) →
      obtenerPrecioActivo activo fechaActual precios ops tc = 0) := by
  constructor
  · constructor
    · rintro ⟨row, hmem, hact⟩
      rw [calculateCurrentPortfolio, calculateCurrentPortfolioNetted, List.mem_filterMap] at hmem
      obtain ⟨a, _, hrow⟩ := hmem
      have haeq : a = activo := by rw [← hact, currentAssetRow_activo hrow]
      subst haeq
      exact (currentAssetRow_some_iff _ _ _ _ _).mp ⟨row, hrow⟩
    · rintro ⟨hnom, hprice⟩
      have hmemL : activo ∈ (aplicarNetting operaciones).map (fun r => r.2.activo) := by
        by_contra hno
        have hall : ∀ r ∈ aplicarNetting operaciones, r.2.activo ≠ activo := by
          intro r hr heq
          exact hno (List.mem_map.mpr ⟨r, hr, heq⟩)
        rw [currentNominalsOf_of_not_mem _ _ _ hall] at hnom
        exact lt_irrefl 0 hnom
      obtain ⟨row, hrow⟩ :=
        (currentAssetRow_some_iff (aplicarNetting operaciones) precios fechaActual tc
          activo).mpr ⟨hnom, hprice⟩
      refine ⟨row, ?_, currentAssetRow_activo hrow⟩
      rw [calculateCurrentPortfolio, calculateCurrentPortfolioNetted, List.mem_filterMap]
      exact ⟨activo, (mem_uniqueL _ _).mpr hmemL, hrow⟩
  · intro ops hdirect hfail
    simp only [obtenerPrecioActivo, hdirect]
    rcases hfail with hnone | hdummy
    · rw [hnone]
    · cases hlast : (ops.filter (fun r => r.2.activo == activo)).getLast? with
      | none => rfl
      | some lastRow =>
        dsimp only
        by_cases hm : detectarMoneda lastRow.2.moneda = Moneda.pesos
        · rw [if_pos hm, hdummy "DUMMY Pesos" (by simp)]
        · rw [if_neg hm, hdummy "DUMMY USD" (by simp)]


/-- Witness for claim C7 at a concrete holding with a direct price. -/
theorem currentPortfolio_inclusion_iff_witness :
    ∃ row ∈ calculateCurrentPortfolio exW7Ops exW7Precios 10 [], row.activo = "V" :=
  (currentPortfolio_inclusion_iff exW7Ops exW7Precios 10 [] "V").1.mpr
    ⟨by simp +decide [currentNominalsOf, assetOpsUntil, opsSinceReset, resetScanExact,
        resetScanStep, aggregateOps, aggStep, aplicarNetting, processAsset, processCompra,
        nettingStep, ventasElegibles, comprasDe, ventasDe, updateRow, sortFrameByFecha,
        insertByFecha, uniqueL, uniqueAux, detectarMoneda, incomeKeywords, exW7Ops, List.foldl],
     by simp +decide [obtenerPrecioActivo, lastPrecio, lookupTC, detectarMoneda,
        aplicarNetting, processAsset, processCompra, nettingStep, ventasElegibles,
        comprasDe, ventasDe, updateRow, sortFrameByFecha, insertByFecha, uniqueL, uniqueAux,
        exW7Ops, exW7Precios, List.foldl]⟩


/-- A labelled write leaves rows with other labels in place. -/
theorem mem_updateRow_ne {i : Nat} {t : Op} {f : Frame} (label : Nat) (c m : ℚ)
    (hne : i ≠ label) (h : (i, t) ∈ f) : (i, t) ∈ updateRow f label c m := by
  rw [updateRow]
  have hmap := List.mem_map_of_mem
    (fun r : Fila => if r.1 = label then (r.1, { r.2 with cantidad := c, monto := m }) else r) h
  simpa [hne] using hmap

/-- One netting step only writes the labels of the processed buy and sell. -/
theorem mem_nettingStep {i : Nat} {t : Op} (idxC : Nat) (cm : ℚ) (st : Frame × ℚ) (r : Fila)
    (hC : i ≠ idxC) (hV : i ≠ r.1) (h : (i, t) ∈ st.1) : (i, t) ∈ (nettingStep idxC cm st r).1 := by
  simp only [nettingStep]
  split
  · exact h
  · split
    · exact mem_updateRow_ne _ _ _ hV (mem_updateRow_ne _ _ _ hC h)
    · exact mem_updateRow_ne _ _ _ hV (mem_updateRow_ne _ _ _ hC h)

/-- The sell loop of one buy only writes the buy label and eligible sell
labels. -/
theorem mem_foldl_nettingStep {i : Nat} {t : Op} (idxC : Nat) (cm : ℚ) (l : Frame)
    (hC : i ≠ idxC) (hl : ∀ p ∈ l, p.1 ≠ i) :
    ∀ st : Frame × ℚ, (i, t) ∈ st.1 → (i, t) ∈ (l.foldl (nettingStep idxC cm) st).1 := by
  induction l with
  | nil => intro st h; exact h
  | cons p rest ih =>
    intro st h
    rw [List.foldl_cons]
    exact ih (fun q hq => hl q (List.mem_cons_of_mem _ hq)) _
      (mem_nettingStep idxC cm st p hC (Ne.symm (hl p (List.mem_cons_self _ _))) h)

/-- Processing one buy only writes its own label and eligible sell labels. -/
theorem mem_processCompra {i : Nat} {t : Op} (ventas opsNetted : Frame) (c : Fila)
    (hC : i ≠ c.1) (hV : ∀ p ∈ ventasElegibles ventas c.2, p.1 ≠ i)
    (h : (i, t) ∈ opsNetted) : (i, t) ∈ processCompra ventas opsNetted c := by
  rw [processCompra]
  split
  · exact h
  · exact mem_foldl_nettingStep c.1 c.2.monto _ hC hV _ h

/-- The buy loop preserves every row whose label it never targets. -/
theorem mem_foldl_processCompra {i : Nat} {t : Op} (ventas : Frame) (compras : Frame)
    (hcond : ∀ c ∈ compras, c.1 ≠ i ∧ ∀ p ∈ ventasElegibles ventas c.2, p.1 ≠ i) :
    ∀ opsNetted, (i, t) ∈ opsNetted → (i, t) ∈ compras.foldl (processCompra ventas) opsNetted := by
  induction compras with
  | nil => intro o h; exact h
  | cons c rest ih =>
    intro o h
    rw [List.foldl_cons]
    refine ih (fun d hd => hcond d (List.mem_cons_of_mem _ hd)) _ ?_
    obtain ⟨h1, h2⟩ := hcond c (List.mem_cons_self _ _)
    exact mem_processCompra ventas o c (Ne.symm h1) h2 h

/-- The asset loop preserves every row whose label no buy or eligible sell
carries. -/
theorem mem_foldl_processAsset {i : Nat} {t : Op} (orig : Frame) (assets : List String)
    (hcond : ∀ a ∈ assets, ∀ c ∈ comprasDe orig a,
      c.1 ≠ i ∧ ∀ p ∈ ventasElegibles (ventasDe orig a) c.2, p.1 ≠ i) :
    ∀ opsNetted, (i, t) ∈ opsNetted → (i, t) ∈ assets.foldl (processAsset orig) opsNetted := by
  induction assets with
  | nil => intro o h; exact h
  | cons a rest ih =>
    intro o h
    rw [List.foldl_cons]
    refine ih (fun b hb => hcond b (List.mem_cons_of_mem _ hb)) _ ?_
    rw [processAsset]
    exact mem_foldl_processCompra _ _ (hcond a (List.mem_cons_self _ _)) _ h

/-- In a frame with distinct labels, a label determines its row. -/
theorem nodup_labels_eq {l : Frame} (hnd : (l.map Prod.fst).Nodup)
    {i : Nat} {t b : Op} (ht : (i, t) ∈ l) (hb : (i, b) ∈ l) : t = b := by
  induction l with
  | nil => cases ht
  | cons s rest ih =>
    rw [List.map_cons, List.nodup_cons] at hnd
    rcases List.mem_cons.mp ht with h1 | h1 <;> rcases List.mem_cons.mp hb with h2 | h2
    · rw [← h1] at h2
      exact ((Prod.ext_iff.mp h2).2).symm
    · exfalso
      apply hnd.1
      have : s.1 = i := by rw [← h1]
      rw [this]
      exact List.mem_map_of_mem Prod.fst h2
    · exfalso
      apply hnd.1
      have : s.1 = i := by rw [← h2]
      rw [this]
      exact List.mem_map_of_mem Prod.fst h1
    · exact ih hnd.2 h1 h2

/-- What membership in the buys of an asset implies. -/
theorem mem_comprasDe {c : Fila} {orig : Frame} {a : String} (h : c ∈ comprasDe orig a) :
    c ∈ orig ∧ c.2.activo = a ∧ strIn "compra" (lowerStr c.2.tipo) = true := by
  rw [comprasDe] at h
  obtain ⟨h1, h2⟩ := List.mem_filter.mp h
  rw [mem_sortFrame] at h1
  obtain ⟨h3, h4⟩ := List.mem_filter.mp h1
  exact ⟨h3, by simpa using h4, h2⟩

/-- What membership in the sells of an asset implies. -/
theorem mem_ventasDe {p : Fila} {orig : Frame} {a : String} (h : p ∈ ventasDe orig a) :
    p ∈ orig ∧ p.2.activo = a ∧ strIn "venta" (lowerStr p.2.tipo) = true := by
  rw [ventasDe] at h
  obtain ⟨h1, h2⟩ := List.mem_filter.mp h
  rw [mem_sortFrame] at h1
  obtain ⟨h3, h4⟩ := List.mem_filter.mp h1
  exact ⟨h3, by simpa using h4, h2⟩

/-- What eligibility of a sell for a buy implies: window, negative quantity
and different currency classification. -/
theorem mem_ventasElegibles {p : Fila} {ventas : Frame} {compra : Op}
    (h : p ∈ ventasElegibles ventas compra) :
    p ∈ ventas ∧ compra.fecha - 7 ≤ p.2.fecha ∧ p.2.fecha ≤ compra.fecha + 7 ∧
      p.2.cantidad < 0 ∧ detectarMoneda p.2.moneda ≠ detectarMoneda compra.moneda := by
  rw [ventasElegibles, mem_sortFrame] at h
  obtain ⟨h1, h2⟩ := List.mem_filter.mp h
  obtain ⟨h3, h4⟩ := List.mem_filter.mp h1
  simp only [Bool.and_eq_true, decide_eq_true_eq] at h4 h2
  exact ⟨h3, h4.1.1, h4.1.2, h4.2, h2⟩


/-- Claim C8: a sell lying outside the seven-day window of every buy of its
asset, or classified in the same currency as every such buy, is never matched
by netting: its row survives the pass with quantity and amount identical
(when its quantity is not the exact zero that the final cleanup drops).
Moreover a sell exactly 7 days from an opposite-currency buy is eligible and
is netted, while one exactly 8 days away is untouched. -/
theorem netting_untouched_sell :
    (∀ (operaciones : Frame) (i : Nat) (t : Op),
      (operaciones.map Prod.fst).Nodup →
      (i, t) ∈ operaciones →
      strIn "venta" (lowerStr t.tipo) = true →
      strIn "compra" (lowerStr t.tipo) = false →
      (∀ (j : Nat) (b : Op), (j, b) ∈ operaciones → b.activo = t.activo →
        strIn "compra" (lowerStr b.tipo) = true →
        (t.fecha < b.fecha - 7 ∨ b.fecha + 7 < t.fecha ∨
          detectarMoneda b.moneda = detectarMoneda t.moneda)) →
      t.cantidad ≠ 0 →
      (i, t) ∈ aplicarNetting operaciones) ∧
    aplicarNetting exC8In = [] ∧ aplicarNetting exC8Out = exC8Out := by
  refine ⟨?_, ?_, ?_⟩
  · intro ops i t hnd hmem hventa hcompra hbuys hq
    rw [aplicarNetting]
    refine List.mem_filter.mpr ⟨?_, by simpa using hq⟩
    refine mem_foldl_processAsset ops _ ?_ _ hmem
    intro a _ c hc
    obtain ⟨hcmem, hcact, hctipo⟩ := mem_comprasDe hc
    constructor
    · intro hci
      have hcin : (i, c.2) ∈ ops := by
        rw [← hci]
        exact hcmem
      have hct : c.2 = t := nodup_labels_eq hnd hcin hmem
      rw [hct] at hctipo
      rw [hctipo] at hcompra
      exact Bool.noConfusion hcompra
    · intro p hp hpi
      obtain ⟨hpv, hw1, hw2, hqneg, hcur⟩ := mem_ventasElegibles hp
      obtain ⟨hpmem, hpact, _⟩ := mem_ventasDe hpv
      have hpin : (i, p.2) ∈ ops := by
        rw [← hpi]
        exact hpmem
      have hpt : p.2 = t := nodup_labels_eq hnd hpin hmem
      have htact : t.activo = a := by rw [← hpt, hpact]
      have hdisj := hbuys c.1 c.2 hcmem (by rw [hcact, htact]) hctipo
      rw [hpt] at hw1 hw2 hcur
      rcases hdisj with hlt | hlt | hmoneq
      · omega
      · omega
      · exact hcur hmoneq.symm
  · norm_num +decide [aplicarNetting, processAsset, processCompra, nettingStep, ventasElegibles,
      comprasDe, ventasDe, updateRow, sortFrameByFecha, insertByFecha, uniqueL, uniqueAux,
      detectarMoneda, exC8In, List.foldl]
  · norm_num +decide [aplicarNetting, processAsset, processCompra, nettingStep, ventasElegibles,
      comprasDe, ventasDe, updateRow, sortFrameByFecha, insertByFecha, uniqueL, uniqueAux,
      detectarMoneda, exC8Out, List.foldl]


/-- Witness for claim C8: a peso sell thirteen days after the only dollar buy
survives netting unchanged. -/
theorem netting_untouched_sell_witness :
    (1, (⟨20, "Venta", "D", -50, none, 600, some "Pesos"⟩ : Op)) ∈ aplicarNetting exW8 :=
  netting_untouched_sell.1 exW8 1 ⟨20, "Venta", "D", -50, none, 600, some "Pesos"⟩
    (by decide) (by decide) (by decide) (by decide)
    (by
      intro j b hjb hact htipo
      have hcases : (j, b) = (0, (⟨0, "Compra", "D", 100, none, 1000, some "Dolar"⟩ : Op)) ∨
          (j, b) = (1, (⟨20, "Venta", "D", -50, none, 600, some "Pesos"⟩ : Op)) := by
        simpa [exW8] using hjb
      rcases hcases with h | h
      · have hb : b = ⟨0, "Compra", "D", 100, none, 1000, some "Dolar"⟩ := (Prod.ext_iff.mp h).2
        rw [hb]
        right
        left
        decide
      · have hb : b = ⟨20, "Venta", "D", -50, none, 600, some "Pesos"⟩ := (Prod.ext_iff.mp h).2
        rw [hb] at htipo
        exact absurd htipo (by decide))
    (by decide)

/-- Inserting a row that a filter rejects does not change the filtered list. -/
theorem filter_insertByFecha_neg (p : Fila → Bool) (z : Fila) (m : Frame) (hz : p z = false) :
    (insertByFecha z m).filter p = m.filter p := by
  induction m with
  | nil => simp [insertByFecha, hz]
  | cons s rest ih =>
    rw [insertByFecha]
    split
    · rw [List.filter_cons, List.filter_cons, ih]
    · rw [List.filter_cons, hz, List.filter_cons]
      simp

/-- Sorting a frame with one row appended is inserting that row into the
sorted frame. -/
theorem sortFrame_append_one (l : Frame) (z : Fila) :
    sortFrameByFecha (l ++ [z]) = insertByFecha z (sortFrameByFecha l) := by
  rw [sortFrameByFecha, sortFrameByFecha, List.foldl_append, List.foldl_cons, List.foldl_nil]

/-- Appending a row that is not a buy leaves every buy list unchanged. -/
theorem comprasDe_append (ops : Frame) (l : Nat) (z : Op) (a : String)
    (hz : strIn "compra" (lowerStr z.tipo) = false) :
    comprasDe (ops ++ [(l, z)]) a = comprasDe ops a := by
  rw [comprasDe, comprasDe, List.filter_append]
  by_cases hza : z.activo == a
  · rw [show List.filter (fun r : Fila => r.2.activo == a) [(l, z)] = [(l, z)] by simp [hza]]
    rw [sortFrame_append_one, filter_insertByFecha_neg _ _ _ hz]
  · rw [show List.filter (fun r : Fila => r.2.activo == a) [(l, z)] = [] by
      simp [List.filter_cons]
      simpa using hza]
    rw [List.append_nil]

/-- Appending a row that is not a sell leaves every sell list unchanged. -/
theorem ventasDe_append (ops : Frame) (l : Nat) (z : Op) (a : String)
    (hz : strIn "venta" (lowerStr z.tipo) = false) :
    ventasDe (ops ++ [(l, z)]) a = ventasDe ops a := by
  rw [ventasDe, ventasDe, List.filter_append]
  by_cases hza : z.activo == a
  · rw [show List.filter (fun r : Fila => r.2.activo == a) [(l, z)] = [(l, z)] by simp [hza]]
    rw [sortFrame_append_one, filter_insertByFecha_neg _ _ _ hz]
  · rw [show List.filter (fun r : Fila => r.2.activo == a) [(l, z)] = [] by
      simp [List.filter_cons]
      simpa using hza]
    rw [List.append_nil]

/-- A labelled write commutes with appending a row of another label. -/
theorem updateRow_append (m : Frame) (l : Nat) (z : Op) (j : Nat) (c v : ℚ) (hne : j ≠ l) :
    updateRow (m ++ [(l, z)]) j c v = updateRow m j c v ++ [(l, z)] := by
  rw [updateRow, updateRow, List.map_append]
  congr 1
  simp [Ne.symm hne]


/-- One netting step commutes with appending an untargeted row. -/
theorem nettingStep_append (m : Frame) (l : Nat) (z : Op) (idxC : Nat) (cm q : ℚ) (r : Fila)
    (hC : idxC ≠ l) (hV : r.1 ≠ l) :
    nettingStep idxC cm (m ++ [(l, z)], q) r =
      ((nettingStep idxC cm (m, q) r).1 ++ [(l, z)], (nettingStep idxC cm (m, q) r).2) := by
  simp only [nettingStep]
  split
  · rfl
  · split
    · rw [updateRow_append _ _ _ _ _ _ hC, updateRow_append _ _ _ _ _ _ hV]
    · rw [updateRow_append _ _ _ _ _ _ hC, updateRow_append _ _ _ _ _ _ hV]

/-- The sell loop commutes with appending an untargeted row. -/
theorem foldl_nettingStep_append (idxC : Nat) (cm : ℚ) (el : Frame) (l : Nat) (z : Op)
    (hC : idxC ≠ l) (hel : ∀ p ∈ el, p.1 ≠ l) :
    ∀ (m : Frame) (q : ℚ),
      el.foldl (nettingStep idxC cm) (m ++ [(l, z)], q) =
        ((el.foldl (nettingStep idxC cm) (m, q)).1 ++ [(l, z)],
          (el.foldl (nettingStep idxC cm) (m, q)).2) := by
  induction el with
  | nil => intro m q; rfl
  | cons p rest ih =>
    intro m q
    rw [List.foldl_cons, List.foldl_cons,
      nettingStep_append m l z idxC cm q p hC (hel p (List.mem_cons_self _ _))]
    exact ih (fun d hd => hel d (List.mem_cons_of_mem _ hd)) _ _

/-- Processing one buy commutes with appending an untargeted row. -/
theorem processCompra_append (ventas m : Frame) (c : Fila) (l : Nat) (z : Op)
    (hC : c.1 ≠ l) (hel : ∀ p ∈ ventasElegibles ventas c.2, p.1 ≠ l) :
    processCompra ventas (m ++ [(l, z)]) c = processCompra ventas m c ++ [(l, z)] := by
  rw [processCompra, processCompra]
  split
  · rfl
  · rw [foldl_nettingStep_append c.1 c.2.monto _ l z hC hel]

/-- The buy loop commutes with appending an untargeted row. -/
theorem foldl_processCompra_append (ventas : Frame) (compras : Frame) (l : Nat) (z : Op)
    (hcond : ∀ c ∈ compras, c.1 ≠ l ∧ ∀ p ∈ ventasElegibles ventas c.2, p.1 ≠ l) :
    ∀ m : Frame,
      compras.foldl (processCompra ventas) (m ++ [(l, z)]) =
        compras.foldl (processCompra ventas) m ++ [(l, z)] := by
  induction compras with
  | nil => intro m; rfl
  | cons c rest ih =>
    intro m
    obtain ⟨h1, h2⟩ := hcond c (List.mem_cons_self _ _)
    rw [List.foldl_cons, List.foldl_cons, processCompra_append ventas m c l z h1 h2]
    exact ih (fun d hd => hcond d (List.mem_cons_of_mem _ hd)) _

/-- unique of a list with one value appended: the value survives at the end
exactly when it is new. -/
theorem uniqueAux_append_one (x : String) (xs : List String) : ∀ seen : List String,
    uniqueAux seen (xs ++ [x]) =
      uniqueAux seen xs ++ (if x ∈ seen ∨ x ∈ xs then [] else [x]) := by
  induction xs with
  | nil =>
    intro seen
    by_cases hx : x ∈ seen <;> simp [uniqueAux, hx]
  | cons y ys ih =>
    intro seen
    by_cases hy : y ∈ seen
    · rw [List.cons_append, uniqueAux, if_pos hy, uniqueAux, if_pos hy, ih seen]
      by_cases hxy : x = y
      · subst hxy
        simp [hy]
      · simp [hxy]
    · rw [List.cons_append, uniqueAux, if_neg hy, uniqueAux, if_neg hy, ih (y :: seen),
        List.cons_append]
      by_cases hxy : x = y
      · subst hxy
        simp
      · simp [hxy, List.mem_cons]
        try tauto


/-- Appending a row that is neither buy nor sell does not change what one
asset reads from the original frame. -/
theorem processAsset_append_orig (ops m : Frame) (l : Nat) (z : Op) (a : String)
    (hcompra : strIn "compra" (lowerStr z.tipo) = false)
    (hventa : strIn "venta" (lowerStr z.tipo) = false) :
    processAsset (ops ++ [(l, z)]) m a = processAsset ops m a := by
  rw [processAsset, processAsset, comprasDe_append _ _ _ _ hcompra,
    ventasDe_append _ _ _ _ hventa]

/-- Per-asset netting commutes with appending a fresh-labelled row to the
frame under mutation. -/
theorem processAsset_append_state (ops : Frame) (l : Nat) (z : Op) (a : String) (m : Frame)
    (hfresh : ∀ r ∈ ops, r.1 ≠ l) :
    processAsset ops (m ++ [(l, z)]) a = processAsset ops m a ++ [(l, z)] := by
  rw [processAsset, processAsset]
  apply foldl_processCompra_append
  intro c hc
  obtain ⟨hcmem, _, _⟩ := mem_comprasDe hc
  refine ⟨hfresh c hcmem, ?_⟩
  intro p hp
  obtain ⟨hpv, _, _, _, _⟩ := mem_ventasElegibles hp
  obtain ⟨hpmem, _, _⟩ := mem_ventasDe hpv
  exact hfresh p hpmem

/-- The asset loop commutes with appending a fresh-labelled row to the frame
under mutation. -/
theorem foldl_processAsset_append_state (ops : Frame) (l : Nat) (z : Op)
    (hfresh : ∀ r ∈ ops, r.1 ≠ l) :
    ∀ (assets : List String) (m : Frame),
      assets.foldl (processAsset ops) (m ++ [(l, z)]) =
        assets.foldl (processAsset ops) m ++ [(l, z)] := by
  intro assets
  induction assets with
  | nil => intro m; rfl
  | cons a rest ih =>
    intro m
    rw [List.foldl_cons, List.foldl_cons, processAsset_append_state ops l z a m hfresh]
    exact ih _

/-- An asset with no rows has no buys. -/
theorem comprasDe_eq_nil_of_not_mem (ops : Frame) (a : String)
    (h : a ∉ ops.map (fun r => r.2.activo)) : comprasDe ops a = [] := by
  rw [comprasDe]
  have hfil : ops.filter (fun r => r.2.activo == a) = [] := by
    rw [List.filter_eq_nil_iff]
    intro r hr hra
    exact h (List.mem_map.mpr ⟨r, hr, by simpa using hra⟩)
  rw [hfil]
  rfl

/-- Appending a zero-quantity row with a fresh label whose kind is neither
buy nor sell leaves the netted frame unchanged: it is read by no buy list and
no sell list, no write ever targets it, and the final cleanup drops it. -/
theorem aplicarNetting_append_zero (ops : Frame) (l : Nat) (z : Op)
    (hfresh : ∀ r ∈ ops, r.1 ≠ l)
    (hcompra : strIn "compra" (lowerStr z.tipo) = false)
    (hventa : strIn "venta" (lowerStr z.tipo) = false)
    (hq : z.cantidad = 0) :
    aplicarNetting (ops ++ [(l, z)]) = aplicarNetting ops := by
  rw [aplicarNetting, aplicarNetting]
  have hpa : processAsset (ops ++ [(l, z)]) = processAsset ops := by
    funext m a
    exact processAsset_append_orig ops m l z a hcompra hventa
  rw [hpa]
  have hmap : (ops ++ [(l, z)]).map (fun r => r.2.activo) =
      ops.map (fun r => r.2.activo) ++ [z.activo] := by
    rw [List.map_append]
    rfl
  rw [hmap, uniqueL, uniqueAux_append_one]
  by_cases hza : z.activo ∈ ops.map (fun r => r.2.activo)
  · rw [if_pos (Or.inr hza), List.append_nil]
    rw [show uniqueAux [] (ops.map (fun r => r.2.activo)) = uniqueL (ops.map (fun r => r.2.activo))
      from rfl]
    rw [foldl_processAsset_append_state ops l z hfresh]
    rw [List.filter_append]
    have hzdrop : List.filter (fun r : Fila => decide (r.2.cantidad ≠ 0)) [(l, z)] = [] := by
      simp [hq]
    rw [hzdrop, List.append_nil]
  · rw [if_neg (by simpa using hza)]
    rw [show uniqueAux [] (ops.map (fun r => r.2.activo)) = uniqueL (ops.map (fun r => r.2.activo))
      from rfl]
    rw [List.foldl_append, List.foldl_cons, List.foldl_nil]
    rw [foldl_processAsset_append_state ops l z hfresh]
    rw [show processAsset ops
        ((uniqueL (ops.map (fun r => r.2.activo))).foldl (processAsset ops) ops ++ [(l, z)])
        z.activo =
      (uniqueL (ops.map (fun r => r.2.activo))).foldl (processAsset ops) ops ++ [(l, z)] by
      rw [processAsset, comprasDe_eq_nil_of_not_mem ops z.activo hza, List.foldl_nil]]
    rw [List.filter_append]
    have hzdrop : List.filter (fun r : Fila => decide (r.2.cantidad ≠ 0)) [(l, z)] = [] := by
      simp [hq]
    rw [hzdrop, List.append_nil]

/-- Claim C10: every row of the netted frame has nonzero quantity - the pass
ends by dropping quantity-zero rows, income rows included (income rows are
never matched since their kind contains neither compra nor venta) - and
consequently appending a zero-quantity income row with a fresh label to any
frame leaves the netted frame, the current-composition report and the
evolution report unchanged; instantiated concretely, a quantity-0 coupon row
with amount 500 changes neither report. -/
theorem netting_drops_zero_quantity :
    (∀ operaciones : Frame, ∀ r ∈ aplicarNetting operaciones, r.2.cantidad ≠ 0) ∧
    (∀ (operaciones : Frame) (l : Nat) (z : Op),
      (∀ r ∈ operaciones, r.1 ≠ l) →
      strIn "compra" (lowerStr z.tipo) = false →
      strIn "venta" (lowerStr z.tipo) = false →
      z.cantidad = 0 →
      aplicarNetting (operaciones ++ [(l, z)]) = aplicarNetting operaciones ∧
      ∀ (precios : List PriceRow) (fechaActual inicio fin : Int) (tc : List TCRow),
        calculateCurrentPortfolio (operaciones ++ [(l, z)]) precios fechaActual tc =
          calculateCurrentPortfolio operaciones precios fechaActual tc ∧
        calculatePortfolioEvolution (operaciones ++ [(l, z)]) precios inicio fin tc =
          calculatePortfolioEvolution operaciones precios inicio fin tc) ∧
    calculateCurrentPortfolio exC10With exC10Precios 10 [] =
      calculateCurrentPortfolio exC10Without exC10Precios 10 [] ∧
    calculatePortfolioEvolution exC10With exC10Precios 0 10 [] =
      calculatePortfolioEvolution exC10Without exC10Precios 0 10 [] := by
  refine ⟨?_, ?_, ?_, ?_⟩
  · intro ops r hr
    rw [aplicarNetting] at hr
    have h2 := (List.mem_filter.mp hr).2
    simpa using h2
  · intro ops l z h1 h2 h3 h4
    have hnet := aplicarNetting_append_zero ops l z h1 h2 h3 h4
    refine ⟨hnet, fun precios fechaActual inicio fin tc => ⟨?_, ?_⟩⟩
    · rw [calculateCurrentPortfolio, calculateCurrentPortfolio, hnet]
    · rw [calculatePortfolioEvolution, calculatePortfolioEvolution, hnet]
  · norm_num +decide [calculateCurrentPortfolio, calculateCurrentPortfolioNetted, currentAssetRow,
      assetOpsUntil, opsSinceReset, resetScanExact, resetScanStep, aggregateOps, aggStep,
      obtenerPrecioActivo, lastPrecio, lookupTC,
      aplicarNetting, processAsset, processCompra, nettingStep, ventasElegibles,
      comprasDe, ventasDe, updateRow, sortFrameByFecha, insertByFecha, uniqueL, uniqueAux,
      detectarMoneda, incomeKeywords, exC10With, exC10Without, exC10Precios, List.foldl,
      List.filterMap_cons]
  · norm_num +decide [calculatePortfolioEvolution, calculatePortfolioEvolutionNetted,
      evolutionAssetRow, evoPaso1Step, evoInicioStep,
      resetScanExact, resetScanStep, aggregateOps, aggStep,
      obtenerPrecioActivo, lastPrecio, lookupTC,
      aplicarNetting, processAsset, processCompra, nettingStep, ventasElegibles,
      comprasDe, ventasDe, updateRow, sortFrameByFecha, insertByFecha, uniqueL, uniqueAux,
      detectarMoneda, incomeKeywords, exC10With, exC10Without, exC10Precios, List.foldl,
      List.filterMap_cons]

/-- Witness for claim C10: the nonzero-quantity invariant at a concrete
netted frame, and the append irrelevance at a concrete quantity-0 coupon. -/
theorem netting_drops_zero_quantity_witness :
    ((⟨0, "Compra", "C", 10, none, 100, some "Dolar"⟩ : Op).cantidad ≠ 0) ∧
    aplicarNetting (exC10Without ++ [(1, ⟨5, "Cupón", "C", 0, none, 500, some "Dolar"⟩)]) =
      aplicarNetting exC10Without :=
  ⟨netting_drops_zero_quantity.1 exC10With (0, ⟨0, "Compra", "C", 10, none, 100, some "Dolar"⟩)
      (by decide),
    (netting_drops_zero_quantity.2.1 exC10Without 1 ⟨5, "Cupón", "C", 0, none, 500, some "Dolar"⟩
      (by decide) (by decide) (by decide) (by decide)).1⟩

end Portfolio
